import Mathlib

/-!
Verification of the sprint-report generator (`scripts/generate_sprint_report.py`).

The script has two stages:
* `parse_markdown` — a line-by-line scan of a markdown document driven by four
  anchored regular expressions (Epic header, Sprint header, Microversion header,
  Task line), building a flat list of Sprint records;
* `generate_html_report` — pure string templating of the parsed model into HTML.

Strings are modelled as `List Char` (`Str`).  Each concrete regular expression is
embedded as a deterministic matcher derived from its backtracking semantics
(greedy `X+` runs over disjoint character classes admit no alternative splits, and
lazy `.*?` takes the shortest extension whose continuation matches).  Python floats
are modelled as exact rationals; the `"%.1f"` format is modelled as round-half-even
to one decimal, which is the rounding Python's `round(x, 1)` and `:.1f` both apply.
-/

/-- Strings as lists of characters. -/
abbrev Str := List Char

/-- Literal strings from Lean string syntax. -/
def lit (s : String) : Str := s.data

/-- Python `str.strip` whitespace class (ASCII part). -/
def isPySpace (c : Char) : Bool :=
  c = ' ' || c = '\t' || c = '\n' || c = '\r' || c = '\x0b' || c = '\x0c'

/-- Python `str.strip`: drop leading and trailing whitespace. -/
def pyStrip (s : Str) : Str :=
  ((s.dropWhile isPySpace).reverse.dropWhile isPySpace).reverse

/-- Python `str.splitlines`: split on `\n`, `\r\n`, `\r`; a trailing terminator
produces no final empty line.  (The exotic Unicode terminators Python also
recognizes do not occur in the documents in scope.) -/
def splitlinesAux (cur : Str) (skipLF : Bool) : Str → List Str
  | [] => if cur.isEmpty then [] else [cur.reverse]
  | '\r' :: rest => cur.reverse :: splitlinesAux [] true rest
  | '\n' :: rest =>
    if skipLF then splitlinesAux [] false rest
    else cur.reverse :: splitlinesAux [] false rest
  | c :: rest => splitlinesAux (c :: cur) false rest

/-- `md_content.splitlines()`. -/
def splitlines (s : Str) : List Str := splitlinesAux [] false s

/-- Semantics of a trailing `$` anchor after `.*` in Python `re`: the remainder is
consumed entirely if it has no newline, or up to a single final newline.  Returns
the consumed body, or `none` when `$` cannot be reached. -/
def dollarBody (r : Str) : Option Str :=
  if r.contains '\n' = false then some r
  else if r.getLast? = some '\n' && r.dropLast.contains '\n' = false then
    some r.dropLast
  else none

/-- `re.match(r"^## (Epic \d+:.*)$", line)`: group 1, if the line matches.
`\d+` is greedy and every shorter backtrack still faces a digit, so the digit run
is maximal and must be followed by `:`. -/
def epic_match (line : Str) : Option Str :=
  match line with
  | '#' :: '#' :: ' ' :: rest =>
    match rest with
    | 'E' :: 'p' :: 'i' :: 'c' :: ' ' :: r2 =>
      let ds := r2.takeWhile Char.isDigit
      if ds.isEmpty then none
      else
        match r2.dropWhile Char.isDigit with
        | ':' :: _ => dollarBody rest
        | _ => none
    | _ => none
  | _ => none

/-- The `\*\*[:]?$` tail of the Sprint-header regex. -/
def sprintTailB (r : Str) : Bool :=
  match r with
  | '*' :: '*' :: rest =>
    dollarBody rest == some [] || dollarBody rest == some [':']
  | _ => false

/-- Inside the optional `\(.*?\)` group of the Sprint-header regex, after the
opening `(`: lazily scan for a `)` whose continuation matches `\*\*[:]?$`,
extending past unsuccessful `)`s (`.` matches `)` but not `\n`). -/
def parenScan : Str → Bool
  | [] => false
  | ')' :: rem => sprintTailB rem || parenScan rem
  | '\n' :: _ => false
  | _ :: rem => parenScan rem

/-- Continuation test after the lazy `.*?` of the Sprint-header regex: the greedy
optional parenthesized group first, then the bare `\*\*[:]?$` tail. -/
def sprintAfterLazy (r : Str) : Bool :=
  (match r with
   | '(' :: t => parenScan t
   | _ => false) || sprintTailB r

/-- The lazy `.*?` of the Sprint-header regex: shortest newline-free prefix whose
continuation matches the rest of the pattern.  Returns that prefix. -/
def sprintLazy : Str → Option Str
  | [] => if sprintAfterLazy [] then some [] else none
  | c :: rest =>
    if sprintAfterLazy (c :: rest) then some []
    else if c = '\n' then none
    else (sprintLazy rest).map (fun e => c :: e)

/-- `re.match(r"^### \*\*(Sprint \d+:.*?)(?:\(.*?\))?\*\*[:]?$", line)`: group 1. -/
def sprint_match (line : Str) : Option Str :=
  match line with
  | '#' :: '#' :: '#' :: ' ' :: '*' :: '*' ::
    'S' :: 'p' :: 'r' :: 'i' :: 'n' :: 't' :: ' ' :: r2 =>
    let ds := r2.takeWhile Char.isDigit
    if ds.isEmpty then none
    else
      match r2.dropWhile Char.isDigit with
      | ':' :: r4 =>
        (sprintLazy r4).map (fun e => lit "Sprint " ++ ds ++ ':' :: e)
      | _ => none
  | _ => none

/-- Does `\*\*` followed by a satisfiable `.*$` start at the head of `r`? -/
def mvStarStop (r : Str) : Bool :=
  match r with
  | '*' :: '*' :: rest => (dollarBody rest).isSome
  | _ => false

/-- The lazy `(.*?)` before `\*\*.*$` in the Microversion-header regex: shortest
newline-free prefix followed by `**` whose remainder satisfies the `$` anchor.
Returns the prefix (group 2) and the remainder after `**`. -/
def mvLazy : Str → Option (Str × Str)
  | [] => none
  | c :: rest =>
    if mvStarStop (c :: rest) then some ([], rest.tail)
    else if c = '\n' then none
    else (mvLazy rest).map (fun p => (c :: p.1, p.2))

/-- A maximal nonempty digit run (`\d+` followed by a non-digit requirement). -/
def digitRun (r : Str) : Option (Str × Str) :=
  let ds := r.takeWhile Char.isDigit
  if ds.isEmpty then none else some (ds, r.dropWhile Char.isDigit)

/-- `re.match(r"^##### \*\*v(\d+\.\d+\.\d+\.\d+[a-z]?) - (.*?)\*\*.*$", line)`:
groups 1 and 2. -/
def mv_match (line : Str) : Option (Str × Str) :=
  match line with
  | '#' :: '#' :: '#' :: '#' :: '#' :: ' ' :: '*' :: '*' :: 'v' :: r0 =>
    match digitRun r0 with
    | none => none
    | some (d1, r1) =>
      match r1 with
      | '.' :: r1' =>
        match digitRun r1' with
        | none => none
        | some (d2, r2) =>
          match r2 with
          | '.' :: r2' =>
            match digitRun r2' with
            | none => none
            | some (d3, r3) =>
              match r3 with
              | '.' :: r3' =>
                match digitRun r3' with
                | none => none
                | some (d4, r4) =>
                  let core := d1 ++ '.' :: d2 ++ '.' :: d3 ++ '.' :: d4
                  match r4 with
                  | ' ' :: '-' :: ' ' :: r5 =>
                    (mvLazy r5).map (fun p => (core, p.1))
                  | c :: ' ' :: '-' :: ' ' :: r5 =>
                    if c.isLower then
                      (mvLazy r5).map (fun p => (core ++ [c], p.1))
                    else none
                  | _ => none
              | _ => none
          | _ => none
      | _ => none
  | _ => none

/-- The description-terminating metadata markers of the Task regex alternation
`(?: - \*\*Effort|\[Effort|\(Effort|Dependencies|Assignee|Granular Steps|Completion Notes|$)`. -/
def taskMarkers : List Str :=
  [lit " - **Effort", lit "[Effort", lit "(Effort", lit "Dependencies",
   lit "Assignee", lit "Granular Steps", lit "Completion Notes"]

/-- Does one of the metadata markers start at the head of `r`? -/
def startsMarker (r : Str) : Bool :=
  taskMarkers.any (fun m => r.take m.length == m)

/-- The terminator alternation of the Task regex can match at `r`: a metadata
marker starts here, or the `$` branch applies. -/
def taskStop (r : Str) : Bool :=
  startsMarker r || r == [] || r == ['\n']

/-- The lazy `(.*?)` of the Task regex (group 3): shortest newline-free prefix
whose continuation satisfies the terminator alternation. -/
def taskLazy : Str → Option Str
  | [] => some []
  | c :: rest =>
    if taskStop (c :: rest) then some []
    else if c = '\n' then none
    else (taskLazy rest).map (fun g => c :: g)

/-- The ID-tail `(?:\.\d+)*` of the Task regex, consumed greedily (a shorter
backtrack would place a `.` or digit where `\*` is required, so the greedy
consumption is the only candidate). -/
def idDotGroupsF : ℕ → Str → (Str × Str)
  | 0, r => ([], r)
  | _ + 1, [] => ([], [])
  | fuel + 1, c :: r' =>
    if c = '.' then
      let ds := r'.takeWhile Char.isDigit
      if ds.isEmpty then ([], c :: r')
      else
        let p := idDotGroupsF fuel (r'.dropWhile Char.isDigit)
        (c :: (ds ++ p.1), p.2)
    else ([], c :: r')

/-- Fuelled driver: each recursion consumes at least one character (a `.` and a
nonempty digit run), so `r.length` fuel always suffices. -/
def idDotGroups (r : Str) : Str × Str := idDotGroupsF r.length r

/-- `re.match(r"^- \[(x| |✅)\] \*\*([A-Z]+\d+(?:\.\d+)*)\*\*: (.*?)(?: - \*\*Effort|\[Effort|\(Effort|Dependencies|Assignee|Granular Steps|Completion Notes|$)", line)`:
the checkbox character (group 1), the task ID (group 2) and the raw description
(group 3). -/
def task_match (line : Str) : Option (Char × Str × Str) :=
  match line with
  | '-' :: ' ' :: '[' :: c :: ']' :: ' ' :: '*' :: '*' :: r0 =>
    if c = 'x' || c = ' ' || c = '✅' then
      let ls := r0.takeWhile Char.isUpper
      if ls.isEmpty then none
      else
        let r1 := r0.dropWhile Char.isUpper
        let ds := r1.takeWhile Char.isDigit
        if ds.isEmpty then none
        else
          let r2 := r1.dropWhile Char.isDigit
          let (dots, r3) := idDotGroups r2
          match r3 with
          | '*' :: '*' :: ':' :: ' ' :: r4 =>
            (taskLazy r4).map (fun g3 => (c, ls ++ ds ++ dots, g3))
          | _ => none
    else none
  | _ => none

namespace Report

/-- Task status: `"Complete"` or `"Open"` in the Python dicts. -/
inductive TaskStatus where
  | Complete : TaskStatus
  | Open : TaskStatus
deriving DecidableEq, Repr

/-- `{"id": ..., "description": ..., "status": ...}`. -/
structure Task where
  id : Str
  description : Str
  status : TaskStatus
deriving DecidableEq, Repr

/-- `{"title": ..., "tasks": [...]}`. -/
structure Microversion where
  title : Str
  tasks : List Task
deriving DecidableEq, Repr

/-- `{"title": ..., "microversions": [...]}` — the record shape used for both
Sprint and Epic headers.  `parse_markdown` never adds a `"tasks"` key to these
dicts, so the renderer's `sprint.get("tasks")` branch is unreachable and the
model has no such field. -/
structure Sprint where
  title : Str
  microversions : List Microversion
deriving DecidableEq, Repr

/-- The parser accumulator: the result list `sprints` plus the two mutable
variables `current_sprint` and `current_microversion`. -/
structure ParseState where
  sprints : List Sprint
  current_sprint : Option Sprint
  current_microversion : Option Microversion
deriving DecidableEq, Repr

/-- The initial accumulator (`sprints = []`, both currents `None`). -/
def initState : ParseState := ⟨[], none, none⟩

/-- The body of the `for line in md_content.splitlines()` loop, one iteration.
The nested fall-through mirrors the `if/elif` chain: the Microversion branch
fires only when its regex matched *and* a Sprint is open, the Task branch only
when its regex matched *and* a Microversion is open; otherwise the line has no
effect.  Note that the Epic/Sprint branches append `current_sprint` as-is and
reset `current_microversion` to `None` without appending it. -/
def parseStep (st : ParseState) (line : Str) : ParseState :=
  match epic_match line with
  | some g =>
    ⟨st.sprints ++ st.current_sprint.toList, some ⟨pyStrip g, []⟩, none⟩
  | none =>
    match sprint_match line with
    | some g =>
      ⟨st.sprints ++ st.current_sprint.toList, some ⟨pyStrip g, []⟩, none⟩
    | none =>
      match mv_match line, st.current_sprint with
      | some (g1, g2), some sp =>
        ⟨st.sprints,
         some ⟨sp.title, sp.microversions ++ st.current_microversion.toList⟩,
         some ⟨'v' :: g1 ++ lit " - " ++ pyStrip g2, []⟩⟩
      | _, _ =>
        match task_match line, st.current_microversion with
        | some (c, tid, g3), some mv =>
          ⟨st.sprints, st.current_sprint,
           some ⟨mv.title, mv.tasks ++
             [⟨tid, pyStrip g3,
               if c = 'x' || c = '✅' then TaskStatus.Complete
               else TaskStatus.Open⟩]⟩⟩
        | _, _ => st

/-- The finalization after the loop (`# Append the last processed microversion
and sprint`): the open Microversion is appended to the open Sprint only when a
Sprint is open, and the open Sprint is appended to the result. -/
def finalize (st : ParseState) : List Sprint :=
  match st.current_sprint with
  | some sp =>
    st.sprints ++ [⟨sp.title, sp.microversions ++ st.current_microversion.toList⟩]
  | none => st.sprints

/-- Run the parser loop over a list of lines from the initial state. -/
def scanLines (lines : List Str) : ParseState :=
  lines.foldl parseStep initState

/-- `parse_markdown` on a list of already-split lines. -/
def parseLines (lines : List Str) : List Sprint :=
  finalize (scanLines lines)

/-- `parse_markdown(md_content)`. -/
def parse_markdown (md : Str) : List Sprint :=
  parseLines (splitlines md)


/-- Round half to even (banker's rounding), the rounding used by Python's
`round` and by `"%.1f"` formatting. -/
def rhe (q : ℚ) : ℤ :=
  let f : ℤ := Int.floor q
  if q - f < 1 / 2 then f
  else if 1 / 2 < q - f then f + 1
  else if f % 2 = 0 then f else f + 1

/-- `str(n)` for a nonnegative integer count. -/
def natStr (n : ℕ) : Str := (toString n).data

/-- Python `f"{x:.1f}"` on a (nonnegative) float value, modelled on the exact
rational: round half-even at the tenths and print one decimal digit. -/
def fmt1 (q : ℚ) : Str :=
  let n : ℤ := rhe (q * 10)
  (toString (n / 10)).data ++ '.' :: (toString (n % 10)).data

/-- Python `f"{x}"` on a float value: an exact rendering of the value.  (The
digit string of CPython's shortest-roundtrip float repr is abstracted to an
injective rendering of the exact rational; no claim depends on its digits.) -/
def floatStr (q : ℚ) : Str := (toString q).data

/-- Number of tasks with status Complete
(`sum(1 for task in tasks if task['status'] == 'Complete')`). -/
def countComplete (ts : List Task) : ℕ :=
  ts.countP (fun t => t.status == TaskStatus.Complete)

/-- `mv_progress = (completed_mv_tasks / total_mv_tasks * 100) if total_mv_tasks > 0 else 0`. -/
def mv_progress (mv : Microversion) : ℚ :=
  if 0 < mv.tasks.length then
    (countComplete mv.tasks : ℚ) / (mv.tasks.length : ℚ) * 100
  else 0

/-- One `<li>` line of a task list. -/
def renderTask (t : Task) : Str :=
  lit "      <li class=\"" ++
  (if t.status == TaskStatus.Complete then lit "task-complete" else lit "task-open") ++
  lit "\"><strong>" ++ t.id ++ lit "</strong>: " ++ t.description ++ lit "</li>\n"

/-- The HTML block emitted for one microversion (loop body, lines 109-137 of the
script). -/
def renderMicroversion (mv : Microversion) : Str :=
  lit "  <div class=\"microversion\">\n    <h3>" ++ mv.title ++ lit "</h3>\n" ++
  lit "    <div class=\"progress-bar-container\">\n      <div class=\"progress-bar\" style=\"width: " ++
  floatStr (mv_progress mv) ++ lit "%;\">" ++
  natStr (countComplete mv.tasks) ++ '/' :: natStr mv.tasks.length ++
  lit " (" ++ fmt1 (mv_progress mv) ++ lit "%)</div>\n    </div>\n" ++
  (if mv.tasks.isEmpty then
    lit "    <p>No tasks defined for this microversion.</p>\n"
   else
    lit "    <ul>\n" ++ (mv.tasks.map renderTask).flatten ++ lit "    </ul>\n") ++
  lit "  </div>\n"

/-- One iteration of the microversion loop: append the microversion's HTML and
add its task counts to the sprint accumulators (`html_content`,
`total_sprint_tasks`, `completed_sprint_tasks`). -/
def mvFold (acc : Str × ℕ × ℕ) (mv : Microversion) : Str × ℕ × ℕ :=
  (acc.1 ++ renderMicroversion mv,
   acc.2.1 + mv.tasks.length,
   acc.2.2 + countComplete mv.tasks)

/-- The `<section>` opening emitted for a sprint before its microversion loop. -/
def sectionHead (s : Sprint) : Str :=
  lit "<section class=\"sprint\">\n  <h2>" ++ s.title ++ lit "</h2>\n"

/-- `sprint_progress = (completed_sprint_tasks / total_sprint_tasks * 100) if total_sprint_tasks > 0 else 0`,
with the accumulators produced by the microversion loop. -/
def sprint_progress (total completed : ℕ) : ℚ :=
  if 0 < total then (completed : ℚ) / (total : ℚ) * 100 else 0

/-- The sprint-summary block emitted when `total_sprint_tasks > 0`. -/
def sprintSummaryBlock (total completed : ℕ) : Str :=
  lit "  <div class=\"sprint-summary progress-bar-container\">\n      <strong>Sprint Progress:</strong> <div class=\"progress-bar\" style=\"width: " ++
  floatStr (sprint_progress total completed) ++ lit "%;\">" ++
  natStr completed ++ '/' :: natStr total ++
  lit " (" ++ fmt1 (sprint_progress total completed) ++ lit "%)</div>\n  </div>\n"

/-- The HTML emitted for one sprint (loop body, lines 76-145 of the script).
`parse_markdown` never populates a `"tasks"` key on a sprint dict, so the
`sprint.get("tasks")` branch is skipped and the initial counters are zero; the
lines 77-86 inspecting epic-shaped entries end in `pass` and emit nothing. -/
def renderSprint (s : Sprint) : Str :=
  let r := s.microversions.foldl mvFold (sectionHead s, 0, 0)
  r.1 ++
  (if 0 < r.2.1 then sprintSummaryBlock r.2.1 r.2.2 else []) ++
  lit "</section>\n"

/-- The fixed HTML skeleton head, with the stylesheet relative path and the
generation timestamp spliced in (both are inputs of the pure templating). -/
def htmlHead (cssRel ts : Str) : Str :=
  lit "<!DOCTYPE html>\n<html lang=\"en\">\n<head>\n    <meta charset=\"UTF-8\">\n    <meta name=\"viewport\" content=\"width=device-width, initial-scale=1.0\">\n    <title>Agile Sprint Status Report</title>\n    <link rel=\"stylesheet\" href=\"" ++
  cssRel ++
  lit "\">\n</head>\n<body>\n    <header>\n        <h1>Adventure Jumper - Agile Sprint Status Report</h1>\n        <p>Generated on: " ++
  ts ++
  lit "</p>\n    </header>\n    <main>\n"

/-- The fixed HTML skeleton foot. -/
def htmlFoot : Str :=
  lit "\n    </main>\n    <footer>\n        <p>End of Report</p>\n    </footer>\n</body>\n</html>"

/-- The full HTML string written by `generate_html_report(sprints, output_path,
css_path)`.  `os.path.relpath(css_path, os.path.dirname(output_path))` is the
input `cssRel`; `datetime.now().strftime('%Y-%m-%d %H:%M:%S')` is the input
`ts`. -/
def generate_html_report (sprints : List Sprint) (cssRel ts : Str) : Str :=
  htmlHead cssRel ts ++
  sprints.foldl (fun acc s => acc ++ renderSprint s) [] ++
  htmlFoot

end Report

namespace Report

/-! ### Spec-side definitions

These definitions follow the specification's wording (not the code); theorems
compare the code-derived definitions above against them. -/

/-- Modelled from the spec: `round(x, 1)` — round to one decimal, half to even
(Python `round`). -/
def round1 (x : ℚ) : ℚ := (rhe (x * 10) : ℚ) / 10

/-- Canonical one-decimal rendering of a rational that is a multiple of `1/10`. -/
def oneDecimalStr (y : ℚ) : Str :=
  (toString (Int.floor (y * 10) / 10)).data ++ '.' :: (toString (Int.floor (y * 10) % 10)).data

/-- Modelled from the spec: `total_sprint = sum of all microversion task totals`. -/
def sprintTotal (s : Sprint) : ℕ :=
  (s.microversions.map (fun m => m.tasks.length)).sum

/-- Modelled from the spec: `completed_sprint = sum of all microversion completed
counts`. -/
def sprintCompleted (s : Sprint) : ℕ :=
  (s.microversions.map (fun m => countComplete m.tasks)).sum

/-- Modelled from the spec (claim C6 wording): the metadata markers as the claim
lists them — note `"- **Effort"` *without* the leading space the regex requires. -/
def claimMarkersC6 : List Str :=
  [lit "- **Effort", lit "[Effort", lit "(Effort", lit "Dependencies",
   lit "Assignee", lit "Granular Steps", lit "Completion Notes"]

/-- Modelled from the spec: truncate a string at the first position where one of
the given markers starts (or keep it whole if none occurs). -/
def truncAtFirst (ms : List Str) : Str → Str
  | [] => []
  | c :: rest =>
    if ms.any (fun m => (c :: rest).take m.length == m) then []
    else c :: truncAtFirst ms rest

/-- Modelled from the spec (claim C6 wording): the description obtained by
truncating the post-colon text at the first claimed metadata marker and
trimming. -/
def claimDescriptionC6 (r : Str) : Str := pyStrip (truncAtFirst claimMarkersC6 r)

/-! ### Matcher shape and disjointness lemmas -/

@[simp] theorem epic_match_dash (r : Str) : epic_match ('-' :: r) = none := rfl

@[simp] theorem epic_match_3hash (r : Str) : epic_match ('#' :: '#' :: '#' :: r) = none := rfl

@[simp] theorem sprint_match_dash (r : Str) : sprint_match ('-' :: r) = none := rfl

@[simp] theorem sprint_match_4hash (r : Str) :
    sprint_match ('#' :: '#' :: '#' :: '#' :: r) = none := rfl

@[simp] theorem mv_match_dash (r : Str) : mv_match ('-' :: r) = none := rfl

@[simp] theorem task_match_hash (r : Str) : task_match ('#' :: r) = none := rfl

theorem task_match_head {line : Str} {v : Char × Str × Str} (h : task_match line = some v) :
    ∃ c r, line = '-' :: ' ' :: '[' :: c :: ']' :: ' ' :: '*' :: '*' :: r := by
  unfold task_match at h
  split at h
  next c r0 => exact ⟨c, r0, rfl⟩
  next => simp at h

theorem mv_match_head {line : Str} {v : Str × Str} (h : mv_match line = some v) :
    ∃ r, line = '#' :: '#' :: '#' :: '#' :: '#' :: ' ' :: r := by
  unfold mv_match at h
  split at h
  next r0 => exact ⟨_, rfl⟩
  next => simp at h

end Report

namespace Report

/-- Soundness and minimality of the lazy description scan: the returned group is
a prefix of the input, the terminator alternation matches right after it, and at
no earlier offset. -/
theorem taskLazy_spec {r g : Str} (h : taskLazy r = some g) :
    ∃ rem, r = g ++ rem ∧ taskStop rem = true ∧
      ∀ i, i < g.length → taskStop (r.drop i) = false := by
  induction r generalizing g with
  | nil =>
    simp only [taskLazy, Option.some.injEq] at h
    subst h
    exact ⟨[], rfl, by decide, by simp⟩
  | cons c rest ih =>
    by_cases hstop : taskStop (c :: rest) = true
    · rw [taskLazy, if_pos hstop] at h
      obtain rfl : ([] : Str) = g := by injection h
      exact ⟨c :: rest, rfl, hstop, by simp⟩
    · by_cases hnl : c = '\n'
      · rw [taskLazy, if_neg hstop, if_pos hnl] at h
        exact absurd h (by simp)
      · rw [taskLazy, if_neg hstop, if_neg hnl] at h
        obtain ⟨g', hg', rfl⟩ := Option.map_eq_some'.mp h
        obtain ⟨rem, hr, hs, hmin⟩ := ih hg'
        refine ⟨rem, by simp [hr], hs, ?_⟩
        intro i hi
        cases i with
        | zero =>
          simpa using Bool.not_eq_true _ |>.mp hstop
        | succ j =>
          simpa using hmin j (by simpa using hi)

/-- `idDotGroupsF` splits its input: consumed part plus remainder. -/
theorem idDotGroupsF_eq (fuel : ℕ) :
    ∀ r : Str, (idDotGroupsF fuel r).1 ++ (idDotGroupsF fuel r).2 = r := by
  induction fuel with
  | zero => intro r; simp [idDotGroupsF]
  | succ n ih =>
    intro r
    cases r with
    | nil => simp [idDotGroupsF]
    | cons c r' =>
      by_cases hc : c = '.'
      · subst hc
        by_cases hds : (r'.takeWhile Char.isDigit).isEmpty = true
        · simp [idDotGroupsF, hds]
        · simp only [idDotGroupsF, hds, if_false, Bool.false_eq_true, if_true, if_pos]
          have hsplit := ih (r'.dropWhile Char.isDigit)
          simp only [List.cons_append, List.append_assoc, hsplit]
          simp [List.takeWhile_append_dropWhile]
      · simp [idDotGroupsF, hc]

/-- `idDotGroups` splits its input: consumed part plus remainder. -/
theorem idDotGroups_eq (r : Str) : (idDotGroups r).1 ++ (idDotGroups r).2 = r :=
  idDotGroupsF_eq r.length r

/-- Full inversion of a successful Task-line match: the line decomposes as
`- [c] **ID**: ` followed by the lazily matched description and its terminator
remainder. -/
theorem task_match_inv {line : Str} {c : Char} {tid g3 : Str}
    (h : task_match line = some (c, tid, g3)) :
    ∃ r4, line = '-' :: ' ' :: '[' :: c :: ']' :: ' ' :: '*' :: '*' ::
        (tid ++ '*' :: '*' :: ':' :: ' ' :: r4) ∧
      (c = 'x' || c = ' ' || c = '✅') = true ∧
      taskLazy r4 = some g3 := by
  unfold task_match at h
  split at h
  next c' r0 =>
    by_cases hc : (c' = 'x' || c' = ' ' || c' = '✅') = true
    · rw [if_pos hc] at h
      by_cases hls : (r0.takeWhile Char.isUpper).isEmpty = true
      · simp [hls] at h
      · simp only [hls, if_false, Bool.false_eq_true] at h
        by_cases hds : ((r0.dropWhile Char.isUpper).takeWhile Char.isDigit).isEmpty = true
        · simp [hds] at h
        · simp only [hds, if_false, Bool.false_eq_true] at h
          split at h
          next r3 r4' heq3 =>
            obtain ⟨g', hg', hv⟩ := Option.map_eq_some'.mp h
            obtain ⟨rfl, htid, rfl⟩ : c' = c ∧
                r0.takeWhile Char.isUpper ++
                  (r0.dropWhile Char.isUpper).takeWhile Char.isDigit ++
                  (idDotGroups ((r0.dropWhile Char.isUpper).dropWhile Char.isDigit)).1 = tid ∧
                g' = g3 := by
              injection hv with h1 h2
              injection h2 with h2 h3
              exact ⟨h1, h2, h3⟩
            refine ⟨r4', ?_, hc, hg'⟩
            have hr0 : r0 = tid ++ '*' :: '*' :: ':' :: ' ' :: r4' := by
              rw [← htid]
              have h1 := List.takeWhile_append_dropWhile (p := Char.isUpper) (l := r0)
              have h2 := List.takeWhile_append_dropWhile (p := Char.isDigit)
                (l := r0.dropWhile Char.isUpper)
              have h3 := idDotGroups_eq ((r0.dropWhile Char.isUpper).dropWhile Char.isDigit)
              rw [heq3] at h3
              calc r0 = r0.takeWhile Char.isUpper ++ r0.dropWhile Char.isUpper := h1.symm
                _ = r0.takeWhile Char.isUpper ++
                    ((r0.dropWhile Char.isUpper).takeWhile Char.isDigit ++
                     (r0.dropWhile Char.isUpper).dropWhile Char.isDigit) := by rw [h2]
                _ = r0.takeWhile Char.isUpper ++
                    ((r0.dropWhile Char.isUpper).takeWhile Char.isDigit ++
                     ((idDotGroups ((r0.dropWhile Char.isUpper).dropWhile Char.isDigit)).1 ++
                      ('*' :: '*' :: ':' :: ' ' :: r4'))) := by rw [h3]
                _ = (r0.takeWhile Char.isUpper ++
                     (r0.dropWhile Char.isUpper).takeWhile Char.isDigit ++
                     (idDotGroups ((r0.dropWhile Char.isUpper).dropWhile Char.isDigit)).1) ++
                    '*' :: '*' :: ':' :: ' ' :: r4' := by
                  simp [List.append_assoc]
            rw [hr0]
          next => simp at h
    · rw [if_neg hc] at h
      simp at h
  next => simp at h

/-- A task line arriving with no open microversion leaves the state unchanged. -/
theorem parseStep_orphan_task {st : ParseState} {line : Str}
    (h : (task_match line).isSome) (hmv : st.current_microversion = none) :
    parseStep st line = st := by
  obtain ⟨v, hv⟩ := Option.isSome_iff_exists.mp h
  obtain ⟨c0, tid0, g30⟩ := v
  obtain ⟨c, r, rfl⟩ := task_match_head hv
  simp [parseStep, hv, hmv]

/-- A microversion header arriving with no open sprint leaves the state
unchanged. -/
theorem parseStep_orphan_mv {st : ParseState} {line : Str}
    (h : (mv_match line).isSome) (hsp : st.current_sprint = none) :
    parseStep st line = st := by
  obtain ⟨v, hv⟩ := Option.isSome_iff_exists.mp h
  obtain ⟨g1, g2⟩ := v
  obtain ⟨r, rfl⟩ := mv_match_head hv
  simp [parseStep, hv, hsp]

end Report

namespace Report

/-- C3: A Task line appearing while no Microversion is open, and a Microversion
header line appearing while no Sprint/Epic is open, is silently discarded: the
parse of the document with the line equals the parse of the document without it,
so it produces no record, raises no error, and is never attached to a later
header. -/
theorem orphan_lines_silently_discarded (pre suf : List Str) (line : Str)
    (h : ((task_match line).isSome ∧ (scanLines pre).current_microversion = none) ∨
         ((mv_match line).isSome ∧ (scanLines pre).current_sprint = none)) :
    parseLines (pre ++ line :: suf) = parseLines (pre ++ suf) := by
  have hstep : parseStep (List.foldl parseStep initState pre) line =
      List.foldl parseStep initState pre := by
    rcases h with ⟨ht, hmv⟩ | ⟨hm, hsp⟩
    · exact parseStep_orphan_task ht hmv
    · exact parseStep_orphan_mv hm hsp
  unfold parseLines scanLines
  rw [List.foldl_append, List.foldl_append, List.foldl_cons, hstep]

/-- C3 witness: a concrete task line right after a Sprint header (no `#####`
header yet) is dropped. -/
theorem orphan_lines_silently_discarded_witness :
    parseLines ([lit "### **Sprint 1: A**"] ++ lit "- [x] **T1**: D" :: []) =
      parseLines ([lit "### **Sprint 1: A**"] ++ []) :=
  orphan_lines_silently_discarded [lit "### **Sprint 1: A**"] []
    (lit "- [x] **T1**: D") (Or.inl ⟨by decide, by decide⟩)

end Report

namespace Report

/-- C1 counterexample: in a document where a Microversion (with a Task) is open
when a Sprint header arrives, the closed Sprint's microversion sequence is empty
— the parsed Microversion `v0.1.0.0 - M` appears nowhere in the output, refuting
the claim that it is appended to the Sprint being closed. -/
theorem sprint_header_drops_open_microversion_counterexample :
    parse_markdown
        (lit "### **Sprint 1: A**\n##### **v0.1.0.0 - M**\n- [x] **T1**: D\n### **Sprint 2: B**") =
      [⟨lit "Sprint 1: A", []⟩, ⟨lit "Sprint 2: B", []⟩] ∧
    ¬ ∃ s ∈ parse_markdown
        (lit "### **Sprint 1: A**\n##### **v0.1.0.0 - M**\n- [x] **T1**: D\n### **Sprint 2: B**"),
        ∃ m ∈ s.microversions, m.title = lit "v0.1.0.0 - M" := by
  constructor
  · decide
  · decide

/-- C1 amended: when a Sprint or Epic header line is encountered while a
Microversion is open, the parser appends the Sprint being closed to the result
list *as-is* and discards the open Microversion (resets it to none) without
appending it; an open Microversion reaches its Sprint only through a later
Microversion header or through end-of-input finalization. -/
theorem sprint_header_closes_sprint_without_microversion (st : ParseState) (line : Str)
    (h : (∃ g, epic_match line = some g) ∨
         (epic_match line = none ∧ ∃ g, sprint_match line = some g)) :
    ∃ t, parseStep st line =
      ⟨st.sprints ++ st.current_sprint.toList, some ⟨t, []⟩, none⟩ := by
  rcases h with ⟨g, hE⟩ | ⟨hE, g, hS⟩
  · exact ⟨pyStrip g, by simp [parseStep, hE]⟩
  · exact ⟨pyStrip g, by simp [parseStep, hE, hS]⟩

/-- C1 amended-claim witness at a concrete state with an open microversion and a
concrete Sprint header line. -/
theorem sprint_header_closes_sprint_without_microversion_witness :
    ∃ t, parseStep
        ⟨[], some ⟨lit "Sprint 1: A", []⟩, some ⟨lit "v0.1.0.0 - M", [⟨lit "T1", lit "D", TaskStatus.Complete⟩]⟩⟩
        (lit "### **Sprint 2: B**") =
      ⟨[] ++ (some (Sprint.mk (lit "Sprint 1: A") [])).toList, some ⟨t, []⟩, none⟩ :=
  sprint_header_closes_sprint_without_microversion
    ⟨[], some ⟨lit "Sprint 1: A", []⟩, some ⟨lit "v0.1.0.0 - M", [⟨lit "T1", lit "D", TaskStatus.Complete⟩]⟩⟩
    (lit "### **Sprint 2: B**")
    (Or.inr ⟨by decide, ⟨lit "Sprint 2: B", by decide⟩⟩)

end Report

namespace Report

theorem epic_match_head {line : Str} {g : Str} (h : epic_match line = some g) :
    ∃ r, line = '#' :: '#' :: ' ' :: 'E' :: 'p' :: 'i' :: 'c' :: ' ' :: r := by
  unfold epic_match at h
  split at h
  next rest =>
    split at h
    next r2 => exact ⟨r2, rfl⟩
    next => simp at h
  next => simp at h

@[simp] theorem sprint_match_2hash_space (r : Str) :
    sprint_match ('#' :: '#' :: ' ' :: r) = none := rfl

/-- An Epic header line never also matches the Sprint-header regex. -/
theorem sprint_none_of_epic {line : Str} {g : Str} (h : epic_match line = some g) :
    sprint_match line = none := by
  obtain ⟨r, rfl⟩ := epic_match_head h
  rfl

/-- The parser step only ever appends to the result list: a prefix of `sprints`
is carried through unchanged. -/
theorem parseStep_sprints_front (a b : List Sprint) (cs : Option Sprint)
    (cm : Option Microversion) (l : Str) :
    parseStep ⟨a ++ b, cs, cm⟩ l =
      ⟨a ++ (parseStep ⟨b, cs, cm⟩ l).sprints,
       (parseStep ⟨b, cs, cm⟩ l).current_sprint,
       (parseStep ⟨b, cs, cm⟩ l).current_microversion⟩ := by
  rcases hE : epic_match l with _ | g <;>
    rcases hS : sprint_match l with _ | g' <;>
    rcases hM : mv_match l with _ | ⟨g1, g2⟩ <;>
    rcases hT : task_match l with _ | ⟨c, tid, d⟩ <;>
    rcases cs with _ | sp <;>
    rcases cm with _ | m <;>
    simp [parseStep, hE, hS, hM, hT]

/-- Folding from a state whose result list has prefix `a` yields `a` as a prefix
of the final result. -/
theorem finalize_foldl_front (ls : List Str) (a : List Sprint) :
    ∀ (b : List Sprint) (cs : Option Sprint) (cm : Option Microversion),
    finalize (ls.foldl parseStep ⟨a ++ b, cs, cm⟩) =
      a ++ finalize (ls.foldl parseStep ⟨b, cs, cm⟩) := by
  induction ls with
  | nil =>
    intro b cs cm
    cases cs <;> simp [finalize]
  | cons l ls ih =>
    intro b cs cm
    simp only [List.foldl_cons]
    rw [parseStep_sprints_front]
    exact ih _ _ _

end Report

namespace Report

/-- Folding from a state with an open Sprint: the open Sprint is eventually
emitted right after the accumulated result, with its already-collected
microversions kept as a prefix, and everything later comes after it. -/
theorem finalize_foldl_open (ls : List Str) :
    ∀ (a : List Sprint) (sp : Sprint) (cm : Option Microversion),
    ∃ extra rest,
      finalize (ls.foldl parseStep ⟨a, some sp, cm⟩) =
        a ++ ⟨sp.title, sp.microversions ++ extra⟩ :: rest := by
  induction ls with
  | nil =>
    intro a sp cm
    exact ⟨cm.toList, [], by simp [finalize]⟩
  | cons l ls ih =>
    intro a sp cm
    simp only [List.foldl_cons]
    rcases hE : epic_match l with _ | g
    · rcases hS : sprint_match l with _ | g'
      · rcases hM : mv_match l with _ | ⟨g1, g2⟩
        · rcases hT : task_match l with _ | ⟨c, tid, d⟩
          · have hstep : parseStep ⟨a, some sp, cm⟩ l = ⟨a, some sp, cm⟩ := by
              simp [parseStep, hE, hS, hM, hT]
            rw [hstep]
            exact ih a sp cm
          · rcases cm with _ | m
            · have hstep : parseStep ⟨a, some sp, none⟩ l = ⟨a, some sp, none⟩ := by
                simp [parseStep, hE, hS, hM, hT]
              rw [hstep]
              exact ih a sp none
            · have hstep : parseStep ⟨a, some sp, some m⟩ l =
                  ⟨a, some sp, some ⟨m.title, m.tasks ++
                    [⟨tid, pyStrip d,
                      if c = 'x' || c = '✅' then TaskStatus.Complete
                      else TaskStatus.Open⟩]⟩⟩ := by
                simp [parseStep, hE, hS, hM, hT]
              rw [hstep]
              exact ih a sp _
        · have hstep : parseStep ⟨a, some sp, cm⟩ l =
              ⟨a, some ⟨sp.title, sp.microversions ++ cm.toList⟩,
               some ⟨'v' :: g1 ++ lit " - " ++ pyStrip g2, []⟩⟩ := by
            simp [parseStep, hE, hS, hM]
          rw [hstep]
          obtain ⟨extra, rest, hfin⟩ :=
            ih a ⟨sp.title, sp.microversions ++ cm.toList⟩
              (some ⟨'v' :: g1 ++ lit " - " ++ pyStrip g2, []⟩)
          exact ⟨cm.toList ++ extra, rest, by simpa [List.append_assoc] using hfin⟩
      · have hstep : parseStep ⟨a, some sp, cm⟩ l =
            ⟨a ++ [sp], some ⟨pyStrip g', []⟩, none⟩ := by
          simp [parseStep, hE, hS]
        rw [hstep]
        obtain ⟨extra, rest, hfin⟩ := ih (a ++ [sp]) ⟨pyStrip g', []⟩ none
        refine ⟨[], ⟨pyStrip g', extra⟩ :: rest, ?_⟩
        rw [hfin]
        simp
    · have hstep : parseStep ⟨a, some sp, cm⟩ l =
          ⟨a ++ [sp], some ⟨pyStrip g, []⟩, none⟩ := by
        simp [parseStep, hE]
      rw [hstep]
      obtain ⟨extra, rest, hfin⟩ := ih (a ++ [sp]) ⟨pyStrip g, []⟩ none
      refine ⟨[], ⟨pyStrip g, extra⟩ :: rest, ?_⟩
      rw [hfin]
      simp

end Report

namespace Report

/-- C4: For every input document containing an Epic header line immediately
followed by a Sprint header line, the parser's result contains two separate
Sprint-shaped entries, adjacent and in that order: the Epic entry with an empty
microversion list (never merged into or used as parent of the Sprint entry),
then the Sprint entry. -/
theorem epic_then_sprint_two_flat_entries (pre suf : List Str) (e s : Str)
    (gE gS : Str) (hE : epic_match e = some gE) (hS : sprint_match s = some gS) :
    ∃ front extra rest,
      parseLines (pre ++ e :: s :: suf) =
        front ++ ⟨pyStrip gE, []⟩ :: ⟨pyStrip gS, extra⟩ :: rest := by
  have hE' : epic_match s = none := by
    rcases h2 : epic_match s with _ | g'
    · rfl
    · rw [sprint_none_of_epic h2] at hS
      cases hS
  unfold parseLines scanLines
  rw [List.foldl_append]
  simp only [List.foldl_cons]
  rw [show parseStep (List.foldl parseStep initState pre) e =
      ⟨(List.foldl parseStep initState pre).sprints ++
        (List.foldl parseStep initState pre).current_sprint.toList,
       some ⟨pyStrip gE, []⟩, none⟩ from by simp [parseStep, hE]]
  rw [show parseStep
      ⟨(List.foldl parseStep initState pre).sprints ++
        (List.foldl parseStep initState pre).current_sprint.toList,
       some ⟨pyStrip gE, []⟩, none⟩ s =
      ⟨((List.foldl parseStep initState pre).sprints ++
         (List.foldl parseStep initState pre).current_sprint.toList) ++
        [⟨pyStrip gE, []⟩],
       some ⟨pyStrip gS, []⟩, none⟩ from by simp [parseStep, hE', hS]]
  obtain ⟨extra, rest, hfin⟩ := finalize_foldl_open suf
    (((List.foldl parseStep initState pre).sprints ++
      (List.foldl parseStep initState pre).current_sprint.toList) ++
     [⟨pyStrip gE, []⟩])
    ⟨pyStrip gS, []⟩ none
  refine ⟨(List.foldl parseStep initState pre).sprints ++
    (List.foldl parseStep initState pre).current_sprint.toList, extra, rest, ?_⟩
  rw [hfin]
  simp

/-- C4 witness: `## Epic 1: Foo` immediately followed by `### **Sprint 1: Bar**`. -/
theorem epic_then_sprint_two_flat_entries_witness :
    ∃ front extra rest,
      parseLines ([] ++ lit "## Epic 1: Foo" :: lit "### **Sprint 1: Bar**" :: []) =
        front ++ ⟨pyStrip (lit "Epic 1: Foo"), []⟩ ::
          ⟨pyStrip (lit "Sprint 1: Bar"), extra⟩ :: rest :=
  epic_then_sprint_two_flat_entries [] [] (lit "## Epic 1: Foo")
    (lit "### **Sprint 1: Bar**") (lit "Epic 1: Foo") (lit "Sprint 1: Bar")
    (by decide) (by decide)

end Report

namespace Report

/-- C5: At end of input the parser appends the still-open Microversion (if any)
to its open Sprint, and appends the still-open Sprint (if any) to the result
list; with no open Sprint the result is exactly the accumulated list, so no
record is lost when the document does not end with a fresh header. -/
theorem end_of_input_finalization (md : Str) :
    (∀ sp mv, (scanLines (splitlines md)).current_sprint = some sp →
      (scanLines (splitlines md)).current_microversion = some mv →
      parse_markdown md =
        (scanLines (splitlines md)).sprints ++
          [⟨sp.title, sp.microversions ++ [mv]⟩]) ∧
    (∀ sp, (scanLines (splitlines md)).current_sprint = some sp →
      (scanLines (splitlines md)).current_microversion = none →
      parse_markdown md = (scanLines (splitlines md)).sprints ++ [sp]) ∧
    ((scanLines (splitlines md)).current_sprint = none →
      parse_markdown md = (scanLines (splitlines md)).sprints) := by
  refine ⟨?_, ?_, ?_⟩
  · intro sp mv h1 h2
    unfold parse_markdown parseLines
    simp [finalize, h1, h2]
  · intro sp h1 h2
    unfold parse_markdown parseLines
    simp [finalize, h1, h2]
  · intro h1
    unfold parse_markdown parseLines
    simp [finalize, h1]

/-- C5 witness: a document ending inside an open Sprint and open Microversion
keeps both in the output. -/
theorem end_of_input_finalization_witness :
    parse_markdown (lit "### **Sprint 1: A**\n##### **v1.0.0.0 - B**") =
      (scanLines (splitlines (lit "### **Sprint 1: A**\n##### **v1.0.0.0 - B**"))).sprints ++
        [⟨lit "Sprint 1: A", [] ++ [⟨lit "v1.0.0.0 - B", []⟩]⟩] :=
  (end_of_input_finalization (lit "### **Sprint 1: A**\n##### **v1.0.0.0 - B**")).1
    ⟨lit "Sprint 1: A", []⟩ ⟨lit "v1.0.0.0 - B", []⟩ (by decide) (by decide)

end Report

namespace Report

/-- C9 (implicit): `parse_markdown` is total — for every input string it returns
the finalized fold of the line scan (no exception path exists), and every single
line either updates the accumulator through exactly one matched pattern (the
earlier patterns failing, and the guard on an open sprint/microversion holding)
or leaves the state unchanged. -/
theorem parse_markdown_total_one_pattern_per_line (md : Str) (st : ParseState) (line : Str) :
    parse_markdown md = finalize ((splitlines md).foldl parseStep initState) ∧
    ((∃ g, epic_match line = some g ∧
        parseStep st line =
          ⟨st.sprints ++ st.current_sprint.toList, some ⟨pyStrip g, []⟩, none⟩) ∨
     (epic_match line = none ∧ ∃ g, sprint_match line = some g ∧
        parseStep st line =
          ⟨st.sprints ++ st.current_sprint.toList, some ⟨pyStrip g, []⟩, none⟩) ∨
     (epic_match line = none ∧ sprint_match line = none ∧
        ∃ g1 g2 sp, mv_match line = some (g1, g2) ∧ st.current_sprint = some sp ∧
          parseStep st line =
            ⟨st.sprints,
             some ⟨sp.title, sp.microversions ++ st.current_microversion.toList⟩,
             some ⟨'v' :: g1 ++ lit " - " ++ pyStrip g2, []⟩⟩) ∨
     (epic_match line = none ∧ sprint_match line = none ∧
        (mv_match line = none ∨ st.current_sprint = none) ∧
        ∃ c tid d m, task_match line = some (c, tid, d) ∧
          st.current_microversion = some m ∧
          parseStep st line =
            ⟨st.sprints, st.current_sprint,
             some ⟨m.title, m.tasks ++
               [⟨tid, pyStrip d,
                 if c = 'x' || c = '✅' then TaskStatus.Complete
                 else TaskStatus.Open⟩]⟩⟩) ∨
     parseStep st line = st) := by
  refine ⟨rfl, ?_⟩
  rcases hE : epic_match line with _ | g
  · rcases hS : sprint_match line with _ | g'
    · rcases hM : mv_match line with _ | ⟨g1, g2⟩
      · rcases hT : task_match line with _ | ⟨c, tid, d⟩
        · exact Or.inr (Or.inr (Or.inr (Or.inr (by simp [parseStep, hE, hS, hM, hT]))))
        · rcases hC : st.current_microversion with _ | m
          · exact Or.inr (Or.inr (Or.inr (Or.inr (by
              rcases st.current_sprint with _ | sp <;>
                simp [parseStep, hE, hS, hM, hT, hC]))))
          · exact Or.inr (Or.inr (Or.inr (Or.inl
              ⟨rfl, rfl, Or.inl rfl, c, tid, d, m, rfl, rfl, by
                rcases hsp : st.current_sprint with _ | sp <;>
                  simp [parseStep, hE, hS, hM, hT, hC, hsp]⟩)))
      · rcases hsp : st.current_sprint with _ | sp
        · rcases hT : task_match line with _ | ⟨c, tid, d⟩
          · exact Or.inr (Or.inr (Or.inr (Or.inr (by
              simp [parseStep, hE, hS, hM, hT, hsp]))))
          · rcases hC : st.current_microversion with _ | m
            · exact Or.inr (Or.inr (Or.inr (Or.inr (by
                simp [parseStep, hE, hS, hM, hT, hsp, hC]))))
            · exact Or.inr (Or.inr (Or.inr (Or.inl
                ⟨rfl, rfl, Or.inr rfl, c, tid, d, m, rfl, rfl, by
                  simp [parseStep, hE, hS, hM, hT, hsp, hC]⟩)))
        · exact Or.inr (Or.inr (Or.inl
            ⟨rfl, rfl, g1, g2, sp, rfl, rfl, by simp [parseStep, hE, hS, hM, hsp]⟩))
    · exact Or.inr (Or.inl ⟨rfl, g', rfl, by simp [parseStep, hE, hS]⟩)
  · exact Or.inl ⟨g, rfl, by simp [parseStep, hE]⟩

end Report

namespace Report

/-- C6 counterexample: on the task line `- [x] **T1**: x- **Effort**: 2h` the
code keeps the whole text `x- **Effort**: 2h` as the description (the regex
marker is `" - **Effort"` with a leading space, which does not occur here),
while truncating at the claim's marker `"- **Effort"` would leave `x`.  The
claim's description rule is therefore false on this input. -/
theorem task_description_marker_counterexample :
    parse_markdown
        (lit "### **Sprint 1: A**\n##### **v1.0.0.0 - M**\n- [x] **T1**: x- **Effort**: 2h") =
      [⟨lit "Sprint 1: A",
        [⟨lit "v1.0.0.0 - M",
          [⟨lit "T1", lit "x- **Effort**: 2h", TaskStatus.Complete⟩]⟩]⟩] ∧
    claimDescriptionC6 (lit "x- **Effort**: 2h") = lit "x" ∧
    lit "x- **Effort**: 2h" ≠ lit "x" :=
  ⟨by decide, by decide, by decide⟩

/-- C6 amended: for every Task line recognized while a Microversion is open, the
appended Task's status is Complete exactly when the checkbox character is `x` or
`✅` (otherwise Open), and its description is the text after the ID's `**: `
separator truncated at the first offset where one of the regex's metadata
markers `" - **Effort"` (with a leading space), `"[Effort"`, `"(Effort"`,
`"Dependencies"`, `"Assignee"`, `"Granular Steps"`, `"Completion Notes"` starts,
or at end of line, and trimmed of surrounding whitespace. -/
theorem task_line_status_and_description (st : ParseState) (line : Str)
    (mv : Microversion) (c : Char) (tid g3 : Str)
    (hmv : st.current_microversion = some mv)
    (ht : task_match line = some (c, tid, g3)) :
    ∃ r4 rem,
      line = '-' :: ' ' :: '[' :: c :: ']' :: ' ' :: '*' :: '*' ::
        (tid ++ '*' :: '*' :: ':' :: ' ' :: r4) ∧
      r4 = g3 ++ rem ∧ taskStop rem = true ∧
      (∀ i, i < g3.length → taskStop (r4.drop i) = false) ∧
      ((if c = 'x' ∨ c = '✅' then TaskStatus.Complete else TaskStatus.Open) =
          TaskStatus.Complete ↔ (c = 'x' ∨ c = '✅')) ∧
      parseStep st line =
        ⟨st.sprints, st.current_sprint,
         some ⟨mv.title, mv.tasks ++
           [⟨tid, pyStrip g3,
             if c = 'x' ∨ c = '✅' then TaskStatus.Complete
             else TaskStatus.Open⟩]⟩⟩ := by
  obtain ⟨r4, hline, hcheck, htl⟩ := task_match_inv ht
  obtain ⟨rem, hsplit, hstop, hmin⟩ := taskLazy_spec htl
  subst hline
  have hif : (if (c = 'x' || c = '✅') = true then TaskStatus.Complete
        else TaskStatus.Open) =
      (if c = 'x' ∨ c = '✅' then TaskStatus.Complete else TaskStatus.Open) := by
    by_cases h1 : c = 'x' <;> by_cases h2 : c = '✅' <;> simp [h1, h2]
  refine ⟨r4, rem, rfl, hsplit, hstop, hmin, ?_, ?_⟩
  · constructor
    · intro hcomp
      by_contra hor
      rw [if_neg hor] at hcomp
      cases hcomp
    · intro hor
      rw [if_pos hor]
  · rw [← hif]
    simp [parseStep, ht, hmv]

/-- C6 amended-claim witness at a concrete open-microversion state and task
line. -/
theorem task_line_status_and_description_witness :
    ∃ r4 rem,
      lit "- [ ] **T1.2**: Do other thing - **Effort**: 1h" =
        '-' :: ' ' :: '[' :: ' ' :: ']' :: ' ' :: '*' :: '*' ::
          (lit "T1.2" ++ '*' :: '*' :: ':' :: ' ' :: r4) ∧
      r4 = lit "Do other thing" ++ rem ∧ taskStop rem = true ∧
      (∀ i, i < (lit "Do other thing").length → taskStop (r4.drop i) = false) ∧
      ((if (' ' : Char) = 'x' ∨ (' ' : Char) = '✅' then TaskStatus.Complete
          else TaskStatus.Open) = TaskStatus.Complete ↔
        ((' ' : Char) = 'x' ∨ (' ' : Char) = '✅')) ∧
      parseStep ⟨[], some ⟨lit "Sprint 1: A", []⟩, some ⟨lit "v1.0.0.0 - M", []⟩⟩
          (lit "- [ ] **T1.2**: Do other thing - **Effort**: 1h") =
        ⟨[], some ⟨lit "Sprint 1: A", []⟩,
         some ⟨lit "v1.0.0.0 - M",
           [] ++ [⟨lit "T1.2", pyStrip (lit "Do other thing"),
             if (' ' : Char) = 'x' ∨ (' ' : Char) = '✅' then TaskStatus.Complete
             else TaskStatus.Open⟩]⟩⟩ :=
  task_line_status_and_description
    ⟨[], some ⟨lit "Sprint 1: A", []⟩, some ⟨lit "v1.0.0.0 - M", []⟩⟩
    (lit "- [ ] **T1.2**: Do other thing - **Effort**: 1h")
    ⟨lit "v1.0.0.0 - M", []⟩ ' ' (lit "T1.2") (lit "Do other thing")
    (by decide) (by decide)

end Report

namespace Report

/-- C8: rendering the same parsed model twice with the same stylesheet path
produces byte-identical HTML except for the embedded generation timestamp: both
outputs share a common prefix and suffix surrounding the timestamp. -/
theorem render_deterministic_modulo_timestamp (sprints : List Sprint)
    (cssRel ts1 ts2 : Str) :
    ∃ pre post,
      generate_html_report sprints cssRel ts1 = pre ++ ts1 ++ post ∧
      generate_html_report sprints cssRel ts2 = pre ++ ts2 ++ post := by
  refine ⟨lit "<!DOCTYPE html>\n<html lang=\"en\">\n<head>\n    <meta charset=\"UTF-8\">\n    <meta name=\"viewport\" content=\"width=device-width, initial-scale=1.0\">\n    <title>Agile Sprint Status Report</title>\n    <link rel=\"stylesheet\" href=\"" ++
      cssRel ++
      lit "\">\n</head>\n<body>\n    <header>\n        <h1>Adventure Jumper - Agile Sprint Status Report</h1>\n        <p>Generated on: ",
    lit "</p>\n    </header>\n    <main>\n" ++
      sprints.foldl (fun acc s => acc ++ renderSprint s) [] ++ htmlFoot, ?_, ?_⟩ <;>
    simp [generate_html_report, htmlHead, List.append_assoc]

/-- The microversion loop of the renderer: the html accumulator collects the
blocks in order, and the two counters collect the sums of the per-microversion
totals and completed counts. -/
theorem mvFold_foldl (mvs : List Microversion) :
    ∀ (h : Str) (a b : ℕ),
    mvs.foldl mvFold (h, a, b) =
      (h ++ (mvs.map renderMicroversion).flatten,
       a + (mvs.map (fun m => m.tasks.length)).sum,
       b + (mvs.map (fun m => countComplete m.tasks)).sum) := by
  induction mvs with
  | nil => intro h a b; simp
  | cons m ms ih =>
    intro h a b
    simp only [List.foldl_cons, mvFold]
    rw [ih]
    simp [List.append_assoc, Nat.add_assoc]

/-- C7: the renderer's sprint-level counters equal the sum of its microversions'
task counts and Complete-task counts, and the sprint body is followed by the
summary block (in the same one-decimal percentage format) exactly when the total
is positive, with the summary omitted entirely when the total is zero. -/
theorem sprint_totals_and_summary (s : Sprint) :
    (s.microversions.foldl mvFold (sectionHead s, 0, 0)).2.1 = sprintTotal s ∧
    (s.microversions.foldl mvFold (sectionHead s, 0, 0)).2.2 = sprintCompleted s ∧
    renderSprint s =
      (sectionHead s ++ (s.microversions.map renderMicroversion).flatten) ++
        (if 0 < sprintTotal s then
          sprintSummaryBlock (sprintTotal s) (sprintCompleted s)
         else []) ++
        lit "</section>\n" := by
  have h := mvFold_foldl s.microversions (sectionHead s) 0 0
  refine ⟨by rw [h]; simp [sprintTotal], by rw [h]; simp [sprintCompleted], ?_⟩
  unfold renderSprint
  rw [h]
  simp [sprintTotal, sprintCompleted, List.append_assoc]

end Report

namespace Report

/-- The one-decimal format the renderer applies displays exactly the value
`round1` (round half-even to one decimal) of its argument. -/
theorem fmt1_eq_oneDecimal_round1 (q : ℚ) : fmt1 q = oneDecimalStr (round1 q) := by
  unfold fmt1 oneDecimalStr round1
  have hfl : Int.floor (((rhe (q * 10) : ℚ) / 10) * 10) = rhe (q * 10) := by
    rw [div_mul_cancel₀]
    · exact Int.floor_intCast _
    · norm_num
  rw [hfl]

/-- C2: for every parsed Microversion, when it has tasks the renderer emits
`completed/total (p%)` where `p` is `round(completed/total*100, 1)` shown with
one decimal place; when it has zero tasks it emits the "no tasks" placeholder
paragraph instead of a task list. -/
theorem microversion_percentage_and_no_tasks_notice (mv : Microversion) :
    (0 < mv.tasks.length →
      ∃ pre post,
        renderMicroversion mv =
          pre ++ natStr (countComplete mv.tasks) ++ '/' :: natStr mv.tasks.length ++
            lit " (" ++
            oneDecimalStr (round1
              ((countComplete mv.tasks : ℚ) / (mv.tasks.length : ℚ) * 100)) ++
            lit "%)" ++ post) ∧
    (mv.tasks.length = 0 →
      renderMicroversion mv =
        lit "  <div class=\"microversion\">\n    <h3>" ++ mv.title ++ lit "</h3>\n" ++
        lit "    <div class=\"progress-bar-container\">\n      <div class=\"progress-bar\" style=\"width: " ++
        floatStr 0 ++ lit "%;\">" ++ natStr 0 ++ '/' :: natStr 0 ++ lit " (" ++
        fmt1 0 ++ lit "%)</div>\n    </div>\n" ++
        lit "    <p>No tasks defined for this microversion.</p>\n" ++
        lit "  </div>\n") := by
  constructor
  · intro h
    refine ⟨lit "  <div class=\"microversion\">\n    <h3>" ++ mv.title ++ lit "</h3>\n" ++
        lit "    <div class=\"progress-bar-container\">\n      <div class=\"progress-bar\" style=\"width: " ++
        floatStr (mv_progress mv) ++ lit "%;\">",
      lit "</div>\n    </div>\n" ++
        (if mv.tasks.isEmpty then
          lit "    <p>No tasks defined for this microversion.</p>\n"
         else lit "    <ul>\n" ++ (mv.tasks.map renderTask).flatten ++ lit "    </ul>\n") ++
        lit "  </div>\n", ?_⟩
    unfold renderMicroversion
    rw [show (lit "%)</div>\n    </div>\n" : Str) =
        lit "%)" ++ lit "</div>\n    </div>\n" from rfl]
    rw [← fmt1_eq_oneDecimal_round1]
    rw [show mv_progress mv =
        (countComplete mv.tasks : ℚ) / (mv.tasks.length : ℚ) * 100 from by
      unfold mv_progress; rw [if_pos h]]
    simp [List.append_assoc]
  · intro h
    have htasks : mv.tasks = [] := List.length_eq_zero.mp h
    unfold renderMicroversion mv_progress
    rw [htasks]
    simp [countComplete]

/-- C2 witness: a microversion with one of two tasks complete, and one with no
tasks. -/
theorem microversion_percentage_and_no_tasks_notice_witness :
    (∃ pre post,
      renderMicroversion ⟨lit "M", [⟨lit "T1", lit "D", TaskStatus.Complete⟩,
          ⟨lit "T2", lit "E", TaskStatus.Open⟩]⟩ =
        pre ++ natStr (countComplete [⟨lit "T1", lit "D", TaskStatus.Complete⟩,
            ⟨lit "T2", lit "E", TaskStatus.Open⟩]) ++
          '/' :: natStr ([⟨lit "T1", lit "D", TaskStatus.Complete⟩,
            ⟨lit "T2", lit "E", TaskStatus.Open⟩] : List Task).length ++
          lit " (" ++
          oneDecimalStr (round1
            ((countComplete [⟨lit "T1", lit "D", TaskStatus.Complete⟩,
                ⟨lit "T2", lit "E", TaskStatus.Open⟩] : ℚ) /
              (([⟨lit "T1", lit "D", TaskStatus.Complete⟩,
                ⟨lit "T2", lit "E", TaskStatus.Open⟩] : List Task).length : ℚ) * 100)) ++
          lit "%)" ++ post) ∧
    renderMicroversion ⟨lit "M0", []⟩ =
      lit "  <div class=\"microversion\">\n    <h3>" ++ lit "M0" ++ lit "</h3>\n" ++
      lit "    <div class=\"progress-bar-container\">\n      <div class=\"progress-bar\" style=\"width: " ++
      floatStr 0 ++ lit "%;\">" ++ natStr 0 ++ '/' :: natStr 0 ++ lit " (" ++
      fmt1 0 ++ lit "%)</div>\n    </div>\n" ++
      lit "    <p>No tasks defined for this microversion.</p>\n" ++
      lit "  </div>\n" :=
  ⟨(microversion_percentage_and_no_tasks_notice
      ⟨lit "M", [⟨lit "T1", lit "D", TaskStatus.Complete⟩,
        ⟨lit "T2", lit "E", TaskStatus.Open⟩]⟩).1 (by decide),
   (microversion_percentage_and_no_tasks_notice ⟨lit "M0", []⟩).2 (by decide)⟩

end Report

namespace Report

/-- The shared progress formula stays within [0, 100] when `completed ≤ total`. -/
theorem progress_value_bounds (total completed : ℕ) (h : completed ≤ total) :
    0 ≤ sprint_progress total completed ∧ sprint_progress total completed ≤ 100 := by
  by_cases ht : 0 < total
  · have h2 : (0 : ℚ) < total := by exact_mod_cast ht
    have h1 : (completed : ℚ) ≤ total := by exact_mod_cast h
    constructor
    · rw [sprint_progress, if_pos ht]
      positivity
    · rw [sprint_progress, if_pos ht, div_mul_eq_mul_div, div_le_iff₀ h2]
      nlinarith
  · rw [sprint_progress, if_neg ht]
    norm_num

/-- The microversion progress is the same formula on the microversion's counts. -/
theorem mv_progress_eq (mv : Microversion) :
    mv_progress mv = sprint_progress mv.tasks.length (countComplete mv.tasks) := rfl

/-- C10 (implicit): for every model produced by `parse_markdown`, in every
rendered progress indicator the completed count is at most the total count, so
every rendered percentage and CSS width value (the microversion progress and the
sprint progress computed from the renderer's accumulated counters) lies in
[0, 100]. -/
theorem rendered_progress_values_in_range (md : Str) (s : Sprint)
    (_hs : s ∈ parse_markdown md) :
    (∀ mv ∈ s.microversions,
      countComplete mv.tasks ≤ mv.tasks.length ∧
      0 ≤ mv_progress mv ∧ mv_progress mv ≤ 100) ∧
    (s.microversions.foldl mvFold (sectionHead s, 0, 0)).2.2 ≤
      (s.microversions.foldl mvFold (sectionHead s, 0, 0)).2.1 ∧
    0 ≤ sprint_progress
        (s.microversions.foldl mvFold (sectionHead s, 0, 0)).2.1
        (s.microversions.foldl mvFold (sectionHead s, 0, 0)).2.2 ∧
    sprint_progress
        (s.microversions.foldl mvFold (sectionHead s, 0, 0)).2.1
        (s.microversions.foldl mvFold (sectionHead s, 0, 0)).2.2 ≤ 100 := by
  have hcount : ∀ ts : List Task, countComplete ts ≤ ts.length := fun ts =>
    List.countP_le_length _
  have hsum : (s.microversions.foldl mvFold (sectionHead s, 0, 0)).2.2 ≤
      (s.microversions.foldl mvFold (sectionHead s, 0, 0)).2.1 := by
    rw [mvFold_foldl]
    simpa using List.sum_le_sum (fun mv _ => hcount mv.tasks)
  refine ⟨?_, hsum, ?_, ?_⟩
  · intro mv _
    refine ⟨hcount mv.tasks, ?_, ?_⟩
    · rw [mv_progress_eq]
      exact (progress_value_bounds _ _ (hcount mv.tasks)).1
    · rw [mv_progress_eq]
      exact (progress_value_bounds _ _ (hcount mv.tasks)).2
  · exact (progress_value_bounds _ _ hsum).1
  · exact (progress_value_bounds _ _ hsum).2

/-- C10 witness at a concrete parsed model. -/
theorem rendered_progress_values_in_range_witness :
    (∀ mv ∈ (Sprint.mk (lit "Epic 1: Foo") []).microversions,
      countComplete mv.tasks ≤ mv.tasks.length ∧
      0 ≤ mv_progress mv ∧ mv_progress mv ≤ 100) ∧
    ((Sprint.mk (lit "Epic 1: Foo") []).microversions.foldl mvFold
        (sectionHead ⟨lit "Epic 1: Foo", []⟩, 0, 0)).2.2 ≤
      ((Sprint.mk (lit "Epic 1: Foo") []).microversions.foldl mvFold
        (sectionHead ⟨lit "Epic 1: Foo", []⟩, 0, 0)).2.1 ∧
    0 ≤ sprint_progress
        ((Sprint.mk (lit "Epic 1: Foo") []).microversions.foldl mvFold
          (sectionHead ⟨lit "Epic 1: Foo", []⟩, 0, 0)).2.1
        ((Sprint.mk (lit "Epic 1: Foo") []).microversions.foldl mvFold
          (sectionHead ⟨lit "Epic 1: Foo", []⟩, 0, 0)).2.2 ∧
    sprint_progress
        ((Sprint.mk (lit "Epic 1: Foo") []).microversions.foldl mvFold
          (sectionHead ⟨lit "Epic 1: Foo", []⟩, 0, 0)).2.1
        ((Sprint.mk (lit "Epic 1: Foo") []).microversions.foldl mvFold
          (sectionHead ⟨lit "Epic 1: Foo", []⟩, 0, 0)).2.2 ≤ 100 :=
  rendered_progress_values_in_range (lit "## Epic 1: Foo")
    ⟨lit "Epic 1: Foo", []⟩ (by decide)

end Report
